import Mathlib

/-!
Verification of the ETF recommendation engine
(`etf-backend/src/investment_engine_optimized.py`, with one component of
`etf-backend/src/investment_engine.py` needed for the determinism claim).

The Python code works on dynamic dictionaries of floats; we embed it
shallowly over `ℚ` with explicit `Option` fields for every key read via
`dict.get(key, default)`.  Python `round(x, 1)` is embedded as `pyRound1`
(round the tenths to the nearest integer); CPython rounds binary floats
half-to-even, our model rounds halves up, and no theorem below depends on a
tie case of this rounding.  Python `int(x)` (truncation toward zero) is
embedded as `pyTrunc`.  Display-only strings that interpolate numbers
(alert `message`, position `reasoning`) are omitted from the records; all
constant strings are kept verbatim.
-/

/-- Embedding of Python `round(x, 1)`: round tenths to the nearest integer
(ties go up in this model; see the header comment). -/
def pyRound1 (q : ℚ) : ℚ := ((round (10 * q) : ℤ) : ℚ) / 10

/-- Embedding of Python `int(x)`: truncation toward zero. -/
def pyTrunc (q : ℚ) : ℤ := if 0 ≤ q then ⌊q⌋ else ⌈q⌉

/- ---------------------------------------------------------------------
Market data (`market_data` dict) and the market analyzer
(`OptimizedMarketAnalyzer`).
--------------------------------------------------------------------- -/

/-- The `market_data` dict: every key the engine reads, optional. -/
structure MarketData where
  vix : Option ℚ
  taiex_rsi : Option ℚ
  taiex_trend : Option String
  economic_indicator : Option String
deriving DecidableEq

/-- The `scores` sub-dict of the analyzer result (values stored rounded). -/
structure MarketScores where
  vix_score : ℚ
  technical_score : ℚ
  economic_score : ℚ
  total_score : ℚ
deriving DecidableEq

/-- The analyzer result dict (the `indicators` echo of the input is
omitted: it is a verbatim copy of `market_data`). -/
structure MarketStrategy where
  strategy : String
  investRate : ℚ
  description : String
  scores : MarketScores
deriving DecidableEq

/-- `OptimizedMarketAnalyzer._calculate_vix_score`. -/
def vixScoreOf (vix : ℚ) : ℚ :=
  if 30 < vix then 85
  else if 25 < vix then 70
  else if 20 < vix then 55
  else if 15 < vix then 45
  else 30

/-- `OptimizedMarketAnalyzer._calculate_technical_score`. -/
def marketTechnicalScoreOf (r : ℚ) (trend : String) : ℚ :=
  let rsiScore : ℚ :=
    if r < 30 then 85
    else if r < 40 then 70
    else if r < 60 then 50
    else if r < 70 then 35
    else 20
  let trendScore : ℚ :=
    if trend = "上升" then 70
    else if trend = "橫盤" then 50
    else if trend = "下降" then 30
    else 50
  rsiScore * 0.7 + trendScore * 0.3

/-- `OptimizedMarketAnalyzer._calculate_economic_score`. -/
def economicScoreOf (ind : String) : ℚ :=
  if ind = "藍燈" then 80
  else if ind = "黃藍燈" then 65
  else if ind = "綠燈" then 50
  else if ind = "黃紅燈" then 35
  else if ind = "紅燈" then 20
  else 50

/-- The (unrounded) `total_score` computed by `OptimizedMarketAnalyzer.analyze`. -/
def analyzeTotalScore (md : MarketData) : ℚ :=
  vixScoreOf (md.vix.getD 20) * 0.3 +
  marketTechnicalScoreOf (md.taiex_rsi.getD 50) ((md.taiex_trend).getD "橫盤") * 0.4 +
  economicScoreOf ((md.economic_indicator).getD "綠燈") * 0.3

/-- `OptimizedMarketAnalyzer.analyze`.  The embedding is total, so the
`except` fallback branch of the source is unreachable here. -/
def OptimizedMarketAnalyzer.analyze (md : MarketData) : MarketStrategy :=
  let vixScore := vixScoreOf (md.vix.getD 20)
  let technicalScore :=
    marketTechnicalScoreOf (md.taiex_rsi.getD 50) ((md.taiex_trend).getD "橫盤")
  let economicScore := economicScoreOf ((md.economic_indicator).getD "綠燈")
  let totalScore := vixScore * 0.3 + technicalScore * 0.4 + economicScore * 0.3
  let scores : MarketScores :=
    ⟨pyRound1 vixScore, pyRound1 technicalScore, pyRound1 economicScore, pyRound1 totalScore⟩
  if 65 ≤ totalScore then
    ⟨"積極策略", 0.8, "市場處於低位，建議積極進場布局優質 ETF", scores⟩
  else if 35 ≤ totalScore then
    ⟨"平衡策略", 0.6, "市場處於正常區間，建議平衡配置，分批進場", scores⟩
  else
    ⟨"保守策略", 0.4, "市場處於高位，建議保守操作，但仍可適度配置", scores⟩

/- ---------------------------------------------------------------------
ETF data (`etf_data` dicts) and the screener (`OptimizedETFScreener`).
Renamings forced by the development: `expense_ratio` → `expenseRate`,
`sharpe_ratio` → `sharpe`, `investment_ratio` → `investRate`.
--------------------------------------------------------------------- -/

/-- The `fundamental_indicators` sub-dict. -/
structure FundamentalIndicators where
  expenseRate : Option ℚ
  aum : Option ℚ
  dividend_yield : Option ℚ
  sharpe : Option ℚ
deriving DecidableEq

/-- The `macd` sub-dict of `technical_indicators`. -/
structure MacdData where
  macd : Option ℚ
  signal : Option ℚ
deriving DecidableEq

/-- The `moving_averages` sub-dict of `technical_indicators`. -/
structure MaData where
  current_price : Option ℚ
  ma20 : Option ℚ
  ma50 : Option ℚ
deriving DecidableEq

/-- The `bollinger_bands` sub-dict of `technical_indicators`. -/
structure BbData where
  upper : Option ℚ
  lower : Option ℚ
  middle : Option ℚ
deriving DecidableEq

/-- The `price_levels` sub-dict of `technical_indicators`. -/
structure PriceLevels where
  price_percentile : Option ℚ
  price_52w_high : Option ℚ
  price_52w_low : Option ℚ
deriving DecidableEq

/-- The `technical_indicators` sub-dict. -/
structure TechnicalIndicators where
  rsi : Option ℚ
  macd : Option MacdData
  moving_averages : Option MaData
  bollinger_bands : Option BbData
  price_levels : Option PriceLevels
deriving DecidableEq

/-- The `liquidity_indicators` sub-dict. -/
structure LiquidityIndicators where
  avg_volume : Option ℚ
  volume_volatility : Option ℚ
  bid_ask_spread : Option ℚ
deriving DecidableEq

/-- One `etf_data` entry.  `symbol` and `name` are accessed with `[...]`
in the source (mandatory keys), the rest through `.get` with defaults. -/
structure Etf where
  symbol : String
  name : String
  current_price : Option ℚ
  fundamental_indicators : Option FundamentalIndicators
  technical_indicators : Option TechnicalIndicators
  liquidity_indicators : Option LiquidityIndicators
  valid : Option Bool
deriving DecidableEq

/-- `etf.get('fundamental_indicators', \x7b\x7d)`. -/
def Etf.fund (e : Etf) : FundamentalIndicators :=
  (e.fundamental_indicators).getD ⟨none, none, none, none⟩

/-- `etf.get('technical_indicators', \x7b\x7d)`. -/
def Etf.tech (e : Etf) : TechnicalIndicators :=
  (e.technical_indicators).getD ⟨none, none, none, none, none⟩

/-- `etf.get('liquidity_indicators', \x7b\x7d)`. -/
def Etf.liq (e : Etf) : LiquidityIndicators :=
  (e.liquidity_indicators).getD ⟨none, none, none⟩

/-- Raw expense figure used by the fundamental score (default 0.5). -/
def expenseRateOf (e : Etf) : ℚ := ((e.fund).expenseRate).getD 0.5

/-- Raw assets-under-management figure (default 1000000000). -/
def aumOf (e : Etf) : ℚ := ((e.fund).aum).getD 1000000000

/-- Raw dividend yield figure (default 0.03). -/
def dividendYieldOf (e : Etf) : ℚ := ((e.fund).dividend_yield).getD 0.03

/-- Raw Sharpe figure (default 0.0). -/
def sharpeOf (e : Etf) : ℚ := ((e.fund).sharpe).getD 0

/-- Raw average-volume figure (default 1000000). -/
def avgVolumeOf (e : Etf) : ℚ := ((e.liq).avg_volume).getD 1000000

/-- Raw volume-volatility figure (default 0.3). -/
def volumeVolatilityOf (e : Etf) : ℚ := ((e.liq).volume_volatility).getD 0.3

/-- Raw bid/ask spread figure (default 0.1). -/
def bidAskSpreadOf (e : Etf) : ℚ := ((e.liq).bid_ask_spread).getD 0.1

/-- `OptimizedETFScreener._calculate_fundamental_score` (unrounded).  The
`except` fallback (50.0) is unreachable in the typed embedding. -/
def fundamentalScore (e : Etf) : ℚ :=
  let expenseScore := max 0 (100 - expenseRateOf e * 100)
  let aumScore := min 100 (aumOf e / 10000000000 * 100)
  let dividendScore := min 100 (dividendYieldOf e * 2000)
  let sharpeScore := max 0 (min 100 ((sharpeOf e + 1) * 50))
  expenseScore * 0.3 + aumScore * 0.2 + dividendScore * 0.3 + sharpeScore * 0.2

/-- `OptimizedETFScreener._calculate_technical_score` (unrounded). -/
def technicalScore (e : Etf) : ℚ :=
  let t := e.tech
  let rsi := (t.rsi).getD 50
  let rsiScore : ℚ :=
    if 30 ≤ rsi ∧ rsi ≤ 70 then 80
    else if rsi < 30 then 90
    else if 70 < rsi then 40
    else 60
  let macdData := (t.macd).getD ⟨none, none⟩
  let macd := (macdData.macd).getD 0
  let signal := (macdData.signal).getD 0
  let macdScore : ℚ := if signal < macd then 70 else 40
  let maData := (t.moving_averages).getD ⟨none, none, none⟩
  let currentPrice := (maData.current_price).getD 50
  let ma20 := (maData.ma20).getD 50
  let ma50 := (maData.ma50).getD 50
  let maScore : ℚ :=
    if ma20 < currentPrice ∧ ma50 < ma20 then 80
    else if ma20 < currentPrice then 60
    else if currentPrice < ma20 ∧ ma20 < ma50 then 30
    else 50
  let bbData := (t.bollinger_bands).getD ⟨none, none, none⟩
  let bbUpper := (bbData.upper).getD 52
  let bbLower := (bbData.lower).getD 48
  let bbMiddle := (bbData.middle).getD 50
  let bbScore : ℚ :=
    if currentPrice < bbLower then 85
    else if bbUpper < currentPrice then 35
    else if bbLower < currentPrice ∧ currentPrice < bbMiddle then 70
    else 50
  rsiScore * 0.3 + macdScore * 0.25 + maScore * 0.25 + bbScore * 0.2

/-- `OptimizedETFScreener._calculate_liquidity_score` (unrounded). -/
def liquidityScore (e : Etf) : ℚ :=
  let volumeScore := min 100 (avgVolumeOf e / 10000000 * 100)
  let volatilityScore := max 0 (100 - volumeVolatilityOf e * 200)
  let spreadScore := max 0 (100 - bidAskSpreadOf e * 1000)
  volumeScore * 0.5 + volatilityScore * 0.25 + spreadScore * 0.25

/-- `price_levels.get('price_percentile', 50)`. -/
def pricePercentileOf (e : Etf) : ℚ :=
  (((e.tech).price_levels).getD ⟨none, none, none⟩).price_percentile.getD 50

/-- `OptimizedETFScreener._calculate_price_level_score`. -/
def priceLevelScore (e : Etf) : ℚ :=
  let p := pricePercentileOf e
  if p ≤ 20 then 90
  else if p ≤ 40 then 75
  else if p ≤ 60 then 50
  else if p ≤ 80 then 35
  else 20

/-- The `price_level` info dict built by
`OptimizedETFScreener._get_price_level_info`. -/
structure PriceLevelInfo where
  percentile : ℚ
  level : String
  signal : String
  description : String
  safety_multiplier : ℚ
  price_52w_high : ℚ
  price_52w_low : ℚ
  current_price : ℚ
deriving DecidableEq

/-- `OptimizedETFScreener._get_price_level_info`.  The `except` fallback
(multiplier 1.0) is unreachable in the typed embedding. -/
def getPriceLevelInfo (e : Etf) : PriceLevelInfo :=
  let p := pricePercentileOf e
  let currentPrice := (e.current_price).getD 50
  let levels := ((e.tech).price_levels).getD ⟨none, none, none⟩
  let hi := (levels.price_52w_high).getD (currentPrice * 1.2)
  let lo := (levels.price_52w_low).getD (currentPrice * 0.8)
  if p ≤ 20 then
    ⟨pyRound1 p, "極低水位", "綠燈", "價格處於歷史低位，絕佳進場機會", 1.3, hi, lo, currentPrice⟩
  else if p ≤ 40 then
    ⟨pyRound1 p, "低水位", "綠燈", "價格偏低，適合逢低布局", 1.15, hi, lo, currentPrice⟩
  else if p ≤ 60 then
    ⟨pyRound1 p, "中等水位", "黃燈", "價格處於合理區間，可正常配置", 1.0, hi, lo, currentPrice⟩
  else if p ≤ 80 then
    ⟨pyRound1 p, "高水位", "橙燈", "價格偏高，建議減少投資比例", 0.8, hi, lo, currentPrice⟩
  else
    ⟨pyRound1 p, "極高水位", "紅燈", "價格處於歷史高位，建議等待回調", 0.6, hi, lo, currentPrice⟩

/-- The rounded `scores` sub-dict of a scored ETF. -/
structure SubScores where
  fundamental : ℚ
  technical : ℚ
  liquidity : ℚ
  price_level : ℚ
deriving DecidableEq

/-- One scored ETF dict as built by `screen_and_score` (all stored score
fields rounded to one decimal, as in the source). -/
structure ScoredEtf where
  symbol : String
  name : String
  current_price : ℚ
  final_score : ℚ
  rating : String
  recommendation : String
  scores : SubScores
  price_level : PriceLevelInfo
  valid : Bool
deriving DecidableEq

/-- The unrounded final score: the fixed 0.3/0.4/0.15/0.15 combination. -/
def rawFinalScore (e : Etf) : ℚ :=
  fundamentalScore e * 0.3 + technicalScore e * 0.4 +
  liquidityScore e * 0.15 + priceLevelScore e * 0.15

/-- The loop body of `OptimizedETFScreener.screen_and_score`: score one
ETF.  The rating thresholds are applied to the unrounded final score,
exactly as in the source. -/
def scoreEtf (e : Etf) : ScoredEtf :=
  let finalScore := rawFinalScore e
  let rac : String × String :=
    if 70 ≤ finalScore then ⟨"綠燈", "強烈建議"⟩
    else if 50 ≤ finalScore then ⟨"黃燈", "可考慮"⟩
    else if 30 ≤ finalScore then ⟨"橙燈", "謹慎考慮"⟩
    else ⟨"紅燈", "暫不建議"⟩
  ⟨e.symbol, e.name, (e.current_price).getD 50, pyRound1 finalScore, rac.1, rac.2,
    ⟨pyRound1 (fundamentalScore e), pyRound1 (technicalScore e),
      pyRound1 (liquidityScore e), pyRound1 (priceLevelScore e)⟩,
    getPriceLevelInfo e, (e.valid).getD true⟩

/-- The sort relation of `scored_etfs.sort(key=..., reverse=True)`:
descending by stored `final_score`.  Python list sort is stable; a stable
sort for the total preorder induced by the key is unique, so Mathlib
`insertionSort` with this non-strict relation computes exactly the same
list (an element is inserted before the first element of strictly smaller
key, i.e. behind all earlier equal keys). -/
def scoreGe (a b : ScoredEtf) : Prop := b.final_score ≤ a.final_score

instance : DecidableRel scoreGe := fun a b => by
  unfold scoreGe; infer_instance

instance : IsTotal ScoredEtf scoreGe :=
  ⟨fun a b => le_total b.final_score a.final_score⟩

instance : IsTrans ScoredEtf scoreGe :=
  ⟨fun _ _ _ h h' => le_trans h' h⟩

/-- `OptimizedETFScreener.screen_and_score`: score every ETF, then sort
descending by stored final score (stable).  Nothing in the typed loop can
raise, so no input is skipped. -/
def screenAndScore (etfs : List Etf) : List ScoredEtf :=
  List.insertionSort scoreGe (etfs.map scoreEtf)

/- ---------------------------------------------------------------------
Allocator (`OptimizedPositionCalculator.calculate`).
--------------------------------------------------------------------- -/

/-- One allocator output dict (`reasoning`, a display string interpolating
numbers, is omitted; every other key is kept). -/
structure Position where
  symbol : String
  name : String
  shares : ℤ
  price : ℚ
  amount : ℚ
  weight : ℚ
  rating : String
  recommendation : String
  price_level : PriceLevelInfo
  scores : SubScores
deriving DecidableEq

/-- `base_weight = max(0.1, etf['final_score'] / 100)`. -/
def baseWeight (e : ScoredEtf) : ℚ := max 0.1 (e.final_score / 100)

/-- `adjusted_weight = base_weight * safety_multiplier`. -/
def adjWeight (e : ScoredEtf) : ℚ := baseWeight e * (e.price_level).safety_multiplier

/-- The qualification-and-selection stage of `calculate` (steps: filter
`final_score >= 40`, fall back to the first three when none qualify, then
take the requested count, default five). -/
def selectedOf (etfScores : List ScoredEtf) (numEtfs : ℕ) : List ScoredEtf :=
  let qualified := etfScores.filter (fun e => decide (40 ≤ e.final_score))
  let qualified := if qualified = [] then etfScores.take 3 else qualified
  if 0 < numEtfs then qualified.take numEtfs else qualified.take 5

/-- `total_weight`: sum of adjusted weights over the selected ETFs. -/
def totalWeightOf (sel : List ScoredEtf) : ℚ := (sel.map adjWeight).sum

/-- `normalized_weight` for one selected ETF (the source divides by
`total_weight` when it is positive, else uses `1.0 / len(positions)`). -/
def normWeight (sel : List ScoredEtf) (e : ScoredEtf) : ℚ :=
  if 0 < totalWeightOf sel then adjWeight e / totalWeightOf sel
  else 1 / (sel.length : ℚ)

/-- The sizing step for one selected ETF: plan `T * w`, buy whole shares,
keep the position only when at least one share is bought. -/
def mkPosition (T w : ℚ) (e : ScoredEtf) : Option Position :=
  let investmentAmount := T * w
  let price := e.current_price
  let shares := if 0 < price then pyTrunc (investmentAmount / price) else 0
  let actualAmount := (shares : ℚ) * price
  if 0 < shares then
    some ⟨e.symbol, e.name, shares, price, actualAmount, w * 100,
      e.rating, e.recommendation, e.price_level, e.scores⟩
  else none

/-- The weighting-and-sizing stage of `calculate` over an already selected
list (the guard mirrors `if not selected_etfs: return []`). -/
def allocateTo (availableCash : ℚ) (ms : MarketStrategy) (sel : List ScoredEtf) :
    List Position :=
  if sel = [] then []
  else sel.filterMap (fun e => mkPosition (availableCash * ms.investRate) (normWeight sel e) e)

/-- `OptimizedPositionCalculator.calculate`.  The two-pass weight loop of
the source is folded into `normWeight`/`mkPosition`, which recompute the
same pure values; the typed embedding cannot raise, so the `except`
fallback is unreachable. -/
def OptimizedPositionCalculator.calculate (availableCash : ℚ) (ms : MarketStrategy)
    (etfScores : List ScoredEtf) (numEtfs : ℕ) : List Position :=
  if etfScores = [] then []
  else allocateTo availableCash ms (selectedOf etfScores numEtfs)

/- ---------------------------------------------------------------------
Risk monitor (`OptimizedRiskMonitor.check_risks`).
--------------------------------------------------------------------- -/

/-- One risk alert dict (the interpolated `message` string is omitted). -/
structure RiskAlert where
  category : String
  level : String
  title : String
deriving DecidableEq

/-- The breadth check of `check_risks` (the source also counts yellow
ratings but never uses the count). -/
def marketRiskAlerts (etfScores : List ScoredEtf) : List RiskAlert :=
  let greenCount := (etfScores.filter (fun e => decide (e.rating = "綠燈"))).length
  let totalCount := etfScores.length
  if 0 < totalCount then
    let greenFrac : ℚ := (greenCount : ℚ) / (totalCount : ℚ)
    if greenFrac < 0.1 then [⟨"market_risk", "high", "市場風險警示"⟩]
    else if greenFrac < 0.2 then [⟨"market_risk", "medium", "市場注意"⟩]
    else []
  else []

/-- The valuation check of `check_risks`. -/
def valuationRiskAlerts (etfScores : List ScoredEtf) : List RiskAlert :=
  let highPriceCount :=
    (etfScores.filter (fun e =>
      decide ((e.price_level).signal = "紅燈" ∨ (e.price_level).signal = "橙燈"))).length
  if (etfScores.length : ℚ) * 0.6 < (highPriceCount : ℚ) then
    [⟨"valuation_risk", "medium", "估值風險"⟩]
  else []

/-- The macro-technical check of `check_risks`. -/
def technicalRiskAlerts (md : MarketData) : List RiskAlert :=
  if 75 < (md.taiex_rsi).getD 50 then [⟨"technical_risk", "medium", "技術面風險"⟩] else []

/-- The volatility check of `check_risks`. -/
def volatilityRiskAlerts (md : MarketData) : List RiskAlert :=
  if 35 < (md.vix).getD 20 then [⟨"volatility_risk", "high", "波動率風險"⟩] else []

/-- `OptimizedRiskMonitor.check_risks`: the four checks append their
alerts in source order. -/
def checkRisks (etfScores : List ScoredEtf) (md : MarketData) : List RiskAlert :=
  marketRiskAlerts etfScores ++ valuationRiskAlerts etfScores ++
  technicalRiskAlerts md ++ volatilityRiskAlerts md

/-- The grouping property claimed for the alert list: every high-severity
alert precedes every non-high alert. -/
def HighSeverityFirst (alerts : List RiskAlert) : Prop :=
  alerts.Pairwise (fun a b => b.level = "high" → a.level = "high")

instance (alerts : List RiskAlert) : Decidable (HighSeverityFirst alerts) := by
  unfold HighSeverityFirst; infer_instance

/- ---------------------------------------------------------------------
The non-optimized engine (`investment_engine.py`): the technical score of
`ETFScreener` reads three values from `np.random` at call time.  We embed
the draw as an explicit argument.
--------------------------------------------------------------------- -/

/-- One runtime draw of `ETFScreener._calculate_technical_score`:
`rsi = np.random.uniform(30, 70)`, `ma_trend = np.random.choice([...])`,
`volume_ratio = np.random.uniform(0.8, 1.5)` (renamed `volumeRate`). -/
structure RandDraw where
  rsi : ℚ
  maTrend : String
  volumeRate : ℚ
deriving DecidableEq

/-- The draws the `np.random` calls of the source can actually produce. -/
def RandDraw.Admissible (d : RandDraw) : Prop :=
  30 ≤ d.rsi ∧ d.rsi < 70 ∧
  (d.maTrend = "上升" ∨ d.maTrend = "下降" ∨ d.maTrend = "橫盤") ∧
  0.8 ≤ d.volumeRate ∧ d.volumeRate < 1.5

instance (d : RandDraw) : Decidable d.Admissible := by
  unfold RandDraw.Admissible; infer_instance

/-- `ETFScreener._calculate_technical_score` of `investment_engine.py`
as a function of the runtime random draw (the ETF argument of the source
is read nowhere in the body).  For admissible draws the dict lookup
`\x7b...\x7d[ma_trend]` cannot fail; unknown labels are mapped to the
last entry to keep the embedding total. -/
def originalTechnicalScore (d : RandDraw) : ℚ :=
  let rsiScore : ℚ :=
    if 30 ≤ d.rsi ∧ d.rsi ≤ 70 then 80
    else if d.rsi < 30 then 60
    else 40
  let trendScore : ℚ :=
    if d.maTrend = "上升" then 80
    else if d.maTrend = "橫盤" then 50
    else 20
  let volumeScore : ℚ := min 100 (d.volumeRate * 60)
  rsiScore * 0.4 + trendScore * 0.4 + volumeScore * 0.2

/-- The optimized screener with a random source threaded through, to state
determinism: the optimized pipeline never consults `np.random`, so the
draw argument is unused. -/
def screenAndScoreWithDraws (etfs : List Etf) (_draws : ℕ → RandDraw) : List ScoredEtf :=
  screenAndScore etfs

/- ---------------------------------------------------------------------
Helper lemmas.
--------------------------------------------------------------------- -/

lemma pyRound1_nonneg {q : ℚ} (h : 0 ≤ q) : 0 ≤ pyRound1 q := by
  unfold pyRound1
  have h1 : (0 : ℤ) ≤ round (10 * q) := by
    rw [round_eq]
    exact Int.floor_nonneg.mpr (by linarith)
  positivity

lemma pyRound1_le_100 {q : ℚ} (h : q ≤ 100) : pyRound1 q ≤ 100 := by
  unfold pyRound1
  have h1 : round (10 * q) ≤ 1000 := by
    rw [round_eq]
    have := Int.floor_le_floor (α := ℚ) (show 10 * q + 1 / 2 ≤ 2001 / 2 by linarith)
    simpa using this.trans_eq (by norm_num)
  rw [div_le_iff₀ (by norm_num)]
  exact_mod_cast h1.trans_eq (by norm_num)

lemma monotone_interp {a b c d w1 w2 w3 w4 : ℚ}
    (ha : 0 ≤ a ∧ a ≤ 100) (hb : 0 ≤ b ∧ b ≤ 100)
    (hc : 0 ≤ c ∧ c ≤ 100) (hd : 0 ≤ d ∧ d ≤ 100)
    (hw : 0 ≤ w1 ∧ 0 ≤ w2 ∧ 0 ≤ w3 ∧ 0 ≤ w4) (hsum : w1 + w2 + w3 + w4 = 1) :
    0 ≤ a * w1 + b * w2 + c * w3 + d * w4 ∧ a * w1 + b * w2 + c * w3 + d * w4 ≤ 100 := by
  obtain ⟨hw1, hw2, hw3, hw4⟩ := hw
  constructor
  · have := mul_nonneg ha.1 hw1
    have := mul_nonneg hb.1 hw2
    have := mul_nonneg hc.1 hw3
    have := mul_nonneg hd.1 hw4
    linarith
  · have := mul_le_mul_of_nonneg_right ha.2 hw1
    have := mul_le_mul_of_nonneg_right hb.2 hw2
    have := mul_le_mul_of_nonneg_right hc.2 hw3
    have := mul_le_mul_of_nonneg_right hd.2 hw4
    nlinarith

/- ---------------------------------------------------------------------
Claim C6.
--------------------------------------------------------------------- -/

/-- Claim C6: for every market snapshot, including snapshots with missing
or unrecognized macro fields, the classifier totally returns a strategy
whose label and deployment figure are decided by the total score with the
thresholds 65 and 35: at least 65 gives the aggressive strategy with
deployment 0.8, at least 35 the balanced strategy with 0.6, otherwise the
conservative strategy with 0.4; the returned deployment figure is positive,
never zero. -/
theorem classifier_thresholds (md : MarketData) :
    (OptimizedMarketAnalyzer.analyze md).strategy =
      (if 65 ≤ analyzeTotalScore md then "積極策略"
       else if 35 ≤ analyzeTotalScore md then "平衡策略" else "保守策略") ∧
    (OptimizedMarketAnalyzer.analyze md).investRate =
      (if 65 ≤ analyzeTotalScore md then (0.8 : ℚ)
       else if 35 ≤ analyzeTotalScore md then 0.6 else 0.4) ∧
    0 < (OptimizedMarketAnalyzer.analyze md).investRate := by
  simp only [OptimizedMarketAnalyzer.analyze, analyzeTotalScore]
  split_ifs <;> norm_num

/- ---------------------------------------------------------------------
Claim C4 (amended part and counterexample input).
--------------------------------------------------------------------- -/

/-- Claim C4, amended: the scorer output holds exactly one scored entry
per input instrument — it is a permutation (the descending sort) of the
per-instrument scores, and no instrument is excluded, whatever its price. -/
theorem screen_keeps_every_input (etfs : List Etf) :
    (screenAndScore etfs).Perm (etfs.map scoreEtf) ∧
    (screenAndScore etfs).length = etfs.length := by
  have hp := List.perm_insertionSort scoreGe (etfs.map scoreEtf)
  exact ⟨hp, by simp [screenAndScore]⟩

/-- An instrument whose `current_price` key holds 0. -/
def eZeroPrice : Etf := ⟨"Z", "零價", some 0, none, none, none, none⟩

/-- Claim C4, counterexample: the zero-priced instrument is present in the
scorer output (the source never filters on price), contradicting the
claimed exclusion of non-positive-price inputs. -/
theorem screen_keeps_zero_price :
    screenAndScore [eZeroPrice] = [scoreEtf eZeroPrice] ∧
    (scoreEtf eZeroPrice).current_price = 0 ∧
    (scoreEtf eZeroPrice).symbol = "Z" := by
  refine ⟨by simp [screenAndScore, List.insertionSort], ?_, rfl⟩
  simp [scoreEtf, eZeroPrice]

/- ---------------------------------------------------------------------
Claim C10.
--------------------------------------------------------------------- -/

/-- Membership in the scorer output comes from scoring some input. -/
lemma mem_screenAndScore {etfs : List Etf} {s : ScoredEtf} (hs : s ∈ screenAndScore etfs) :
    ∃ e ∈ etfs, s = scoreEtf e := by
  have hmem : s ∈ etfs.map scoreEtf :=
    (List.perm_insertionSort scoreGe (etfs.map scoreEtf)).subset hs
  obtain ⟨e, he, rfl⟩ := List.mem_map.mp hmem
  exact ⟨e, he, rfl⟩

/-- The multiplier attached by `_get_price_level_info` is one of the five
source constants. -/
lemma getPriceLevelInfo_multiplier (e : Etf) :
    (getPriceLevelInfo e).safety_multiplier ∈ ([0.6, 0.8, 1.0, 1.15, 1.3] : List ℚ) := by
  simp only [getPriceLevelInfo]
  split_ifs <;> simp

/-- Claim C10: the price-level safety multiplier of every scored
instrument is exactly one of 0.6, 0.8, 1.0, 1.15, 1.3 (the unreachable
error fallback of the source also uses 1.0), so the allocator's adjusted
weight stays between 0.6 and 1.3 times the base weight. -/
theorem safety_multiplier_range (etfs : List Etf) (s : ScoredEtf)
    (hs : s ∈ screenAndScore etfs) :
    (s.price_level).safety_multiplier ∈ ([0.6, 0.8, 1.0, 1.15, 1.3] : List ℚ) ∧
    0.6 * baseWeight s ≤ adjWeight s ∧ adjWeight s ≤ 1.3 * baseWeight s := by
  obtain ⟨e, _, rfl⟩ := mem_screenAndScore hs
  have hmul : ((scoreEtf e).price_level).safety_multiplier ∈ ([0.6, 0.8, 1.0, 1.15, 1.3] : List ℚ) := by
    simpa [scoreEtf] using getPriceLevelInfo_multiplier e
  have hmul' : ((scoreEtf e).price_level).safety_multiplier = 0.6 ∨
      ((scoreEtf e).price_level).safety_multiplier = 0.8 ∨
      ((scoreEtf e).price_level).safety_multiplier = 1.0 ∨
      ((scoreEtf e).price_level).safety_multiplier = 1.15 ∨
      ((scoreEtf e).price_level).safety_multiplier = 1.3 := by
    simpa using hmul
  have hb : (0.1 : ℚ) ≤ baseWeight (scoreEtf e) := le_max_left _ _
  refine ⟨hmul, ?_, ?_⟩ <;>
  · unfold adjWeight
    rcases hmul' with h | h | h | h | h <;> rw [h] <;> linarith

/-- A neutral instrument: every optional fact absent. -/
def eNeutral : Etf := ⟨"0050", "元大台灣50", some 50, none, none, none, none⟩

/-- Witness for claim C10 at a concrete input. -/
theorem safety_multiplier_range_witness :
    (scoreEtf eNeutral) ∈ screenAndScore [eNeutral] ∧
    (((scoreEtf eNeutral).price_level).safety_multiplier ∈ ([0.6, 0.8, 1.0, 1.15, 1.3] : List ℚ) ∧
      0.6 * baseWeight (scoreEtf eNeutral) ≤ adjWeight (scoreEtf eNeutral) ∧
      adjWeight (scoreEtf eNeutral) ≤ 1.3 * baseWeight (scoreEtf eNeutral)) :=
  ⟨by simp [screenAndScore, List.insertionSort],
    safety_multiplier_range [eNeutral] (scoreEtf eNeutral)
      (by simp [screenAndScore, List.insertionSort])⟩

/- ---------------------------------------------------------------------
Claim C3.
--------------------------------------------------------------------- -/

/-- Inserting an element into a list leaves the sublist of any fixed
final score unchanged except for prepending the element when its own
score matches: the insertion point sits behind every strictly larger
score, hence in front of every equal one. -/
lemma filter_orderedInsert_score (a : ScoredEtf) (l : List ScoredEtf) (q : ℚ) :
    (List.orderedInsert scoreGe a l).filter (fun s => decide (s.final_score = q)) =
      if a.final_score = q
      then a :: l.filter (fun s => decide (s.final_score = q))
      else l.filter (fun s => decide (s.final_score = q)) := by
  induction l with
  | nil =>
    by_cases haq : a.final_score = q <;> simp [List.orderedInsert, haq]
  | cons b t ih =>
    by_cases hab : scoreGe a b
    · rw [List.orderedInsert, if_pos hab]
      by_cases haq : a.final_score = q <;> simp [List.filter_cons, haq]
    · rw [List.orderedInsert, if_neg hab]
      have hba : a.final_score < b.final_score := lt_of_not_le hab
      by_cases haq : a.final_score = q
      · have hbq : ¬ b.final_score = q := fun h => absurd (haq ▸ h ▸ hba) (lt_irrefl _)
        simp [List.filter_cons, ih, haq, hbq]
      · by_cases hbq : b.final_score = q <;> simp [List.filter_cons, ih, haq, hbq]

/-- The stable sort of the screener preserves, for every fixed final
score, the original order of the equally scored entries. -/
lemma filter_insertionSort_score (l : List ScoredEtf) (q : ℚ) :
    (List.insertionSort scoreGe l).filter (fun s => decide (s.final_score = q)) =
      l.filter (fun s => decide (s.final_score = q)) := by
  induction l with
  | nil => rfl
  | cons b t ih =>
    rw [List.insertionSort, filter_orderedInsert_score]
    by_cases hbq : b.final_score = q <;> simp [List.filter_cons, hbq, ih]

/-- Claim C3, amended: the scorer output is sorted descending by stored
final score, and entries of equal final score keep the input order (the
sort is stable); they are not reordered by symbol. -/
theorem screen_sorted_and_stable (etfs : List Etf) :
    List.Sorted scoreGe (screenAndScore etfs) ∧
    ∀ q : ℚ, (screenAndScore etfs).filter (fun s => decide (s.final_score = q)) =
      (etfs.map scoreEtf).filter (fun s => decide (s.final_score = q)) :=
  ⟨List.sorted_insertionSort scoreGe (etfs.map scoreEtf),
    fun q => filter_insertionSort_score (etfs.map scoreEtf) q⟩

/-- The tie-break order the claim asserts: equal final scores listed in
ascending symbol order. -/
def TiesBySymbolAscending (l : List ScoredEtf) : Prop :=
  l.Pairwise (fun a b => a.final_score = b.final_score → a.symbol ≤ b.symbol)

/-- Two identically valued instruments whose symbols are in descending
order in the input. -/
def eTieB : Etf := ⟨"B", "乙", some 50, none, none, none, none⟩

/-- The alphabetically smaller twin of `eTieB`, listed second. -/
def eTieA : Etf := ⟨"A", "甲", some 50, none, none, none, none⟩

/-- Claim C3, counterexample: on two instruments with equal final score
given in symbol-descending order, the stable sort keeps them in input
order "B", "A", so ties are not broken by ascending symbol. -/
theorem screen_tie_order_counterexample :
    (scoreEtf eTieB).final_score = (scoreEtf eTieA).final_score ∧
    (screenAndScore [eTieB, eTieA]).map ScoredEtf.symbol = ["B", "A"] ∧
    ¬ TiesBySymbolAscending (screenAndScore [eTieB, eTieA]) := by
  have hfs : (scoreEtf eTieA).final_score = (scoreEtf eTieB).final_score := rfl
  have hlist : screenAndScore [eTieB, eTieA] = [scoreEtf eTieB, scoreEtf eTieA] := by
    show List.orderedInsert scoreGe (scoreEtf eTieB)
      (List.orderedInsert scoreGe (scoreEtf eTieA) []) = _
    rw [List.orderedInsert, List.orderedInsert,
      if_pos (show scoreGe (scoreEtf eTieB) (scoreEtf eTieA) from le_of_eq hfs)]
  refine ⟨hfs.symm, by rw [hlist]; rfl, ?_⟩
  rw [hlist]
  unfold TiesBySymbolAscending
  rw [List.pairwise_cons]
  intro ⟨h1, _⟩
  have hBA : (scoreEtf eTieB).symbol ≤ (scoreEtf eTieA).symbol :=
    h1 (scoreEtf eTieA) (List.mem_singleton.mpr rfl) hfs.symm
  have : ¬ ("B" : String) ≤ "A" := by
    intro h
    apply h
    rw [String.lt_iff_toList_lt]
    decide
  exact this hBA

/- ---------------------------------------------------------------------
Claim C2.
--------------------------------------------------------------------- -/

/-- Nonnegativity of the raw fundamental and liquidity facts (with the
source defaults substituted); the score bounds claimed by the
specification hold exactly on this domain. -/
def SaneFacts (e : Etf) : Prop :=
  0 ≤ expenseRateOf e ∧ 0 ≤ aumOf e ∧ 0 ≤ dividendYieldOf e ∧
  0 ≤ avgVolumeOf e ∧ 0 ≤ volumeVolatilityOf e ∧ 0 ≤ bidAskSpreadOf e

lemma fundamentalScore_bounds {e : Etf} (her : 0 ≤ expenseRateOf e)
    (ha : 0 ≤ aumOf e) (hd : 0 ≤ dividendYieldOf e) :
    0 ≤ fundamentalScore e ∧ fundamentalScore e ≤ 100 := by
  simp only [fundamentalScore]
  have h1 : (0:ℚ) ≤ max 0 (100 - expenseRateOf e * 100) := le_max_left _ _
  have h1' : max 0 (100 - expenseRateOf e * 100) ≤ 100 :=
    max_le (by norm_num) (by nlinarith)
  have h2 : (0:ℚ) ≤ min 100 (aumOf e / 10000000000 * 100) :=
    le_min (by norm_num) (by positivity)
  have h2' : min 100 (aumOf e / 10000000000 * 100) ≤ 100 := min_le_left _ _
  have h3 : (0:ℚ) ≤ min 100 (dividendYieldOf e * 2000) :=
    le_min (by norm_num) (by positivity)
  have h3' : min 100 (dividendYieldOf e * 2000) ≤ 100 := min_le_left _ _
  have h4 : (0:ℚ) ≤ max 0 (min 100 ((sharpeOf e + 1) * 50)) := le_max_left _ _
  have h4' : max 0 (min 100 ((sharpeOf e + 1) * 50)) ≤ 100 :=
    max_le (by norm_num) (min_le_left _ _)
  constructor <;> linarith

lemma technicalScore_bounds (e : Etf) :
    0 ≤ technicalScore e ∧ technicalScore e ≤ 100 := by
  simp only [technicalScore]
  split_ifs <;> norm_num

lemma liquidityScore_bounds {e : Etf} (hv : 0 ≤ avgVolumeOf e)
    (hvv : 0 ≤ volumeVolatilityOf e) (hsp : 0 ≤ bidAskSpreadOf e) :
    0 ≤ liquidityScore e ∧ liquidityScore e ≤ 100 := by
  simp only [liquidityScore]
  have h1 : (0:ℚ) ≤ min 100 (avgVolumeOf e / 10000000 * 100) :=
    le_min (by norm_num) (by positivity)
  have h1' : min 100 (avgVolumeOf e / 10000000 * 100) ≤ 100 := min_le_left _ _
  have h2 : (0:ℚ) ≤ max 0 (100 - volumeVolatilityOf e * 200) := le_max_left _ _
  have h2' : max 0 (100 - volumeVolatilityOf e * 200) ≤ 100 :=
    max_le (by norm_num) (by nlinarith)
  have h3 : (0:ℚ) ≤ max 0 (100 - bidAskSpreadOf e * 1000) := le_max_left _ _
  have h3' : max 0 (100 - bidAskSpreadOf e * 1000) ≤ 100 :=
    max_le (by norm_num) (by nlinarith)
  constructor <;> linarith

lemma priceLevelScore_bounds (e : Etf) :
    0 ≤ priceLevelScore e ∧ priceLevelScore e ≤ 100 := by
  simp only [priceLevelScore]
  split_ifs <;> norm_num

lemma rawFinalScore_bounds {e : Etf} (h : SaneFacts e) :
    0 ≤ rawFinalScore e ∧ rawFinalScore e ≤ 100 := by
  obtain ⟨h1, h2, h3, h4, h5, h6⟩ := h
  obtain ⟨hf, hf'⟩ := fundamentalScore_bounds h1 h2 h3
  obtain ⟨ht, ht'⟩ := technicalScore_bounds e
  obtain ⟨hl, hl'⟩ := liquidityScore_bounds h4 h5 h6
  obtain ⟨hp, hp'⟩ := priceLevelScore_bounds e
  unfold rawFinalScore
  constructor <;> linarith

/-- Claim C2, amended: on instrument batches whose fundamental and
liquidity facts are nonnegative, every stored sub-score and the stored
final score lie in [0,100]; the stored final score is the fixed
0.3/0.4/0.15/0.15 convex combination of the UNROUNDED sub-scores, rounded
to one decimal, and the stored sub-scores are the individually rounded
values (so the stored final score need not equal the same combination of
the stored sub-scores). -/
theorem scores_bounded_and_combined (etfs : List Etf) (h : ∀ e ∈ etfs, SaneFacts e)
    (s : ScoredEtf) (hs : s ∈ screenAndScore etfs) :
    (0 ≤ (s.scores).fundamental ∧ (s.scores).fundamental ≤ 100) ∧
    (0 ≤ (s.scores).technical ∧ (s.scores).technical ≤ 100) ∧
    (0 ≤ (s.scores).liquidity ∧ (s.scores).liquidity ≤ 100) ∧
    (0 ≤ (s.scores).price_level ∧ (s.scores).price_level ≤ 100) ∧
    (0 ≤ s.final_score ∧ s.final_score ≤ 100) ∧
    ∃ e ∈ etfs, s = scoreEtf e ∧
      s.final_score = pyRound1 (fundamentalScore e * 0.3 + technicalScore e * 0.4 +
        liquidityScore e * 0.15 + priceLevelScore e * 0.15) ∧
      s.scores = ⟨pyRound1 (fundamentalScore e), pyRound1 (technicalScore e),
        pyRound1 (liquidityScore e), pyRound1 (priceLevelScore e)⟩ := by
  obtain ⟨e, he, rfl⟩ := mem_screenAndScore hs
  have sane := h e he
  obtain ⟨h1, h2, h3, h4, h5, h6⟩ := sane
  have hsc : (scoreEtf e).scores = ⟨pyRound1 (fundamentalScore e), pyRound1 (technicalScore e),
      pyRound1 (liquidityScore e), pyRound1 (priceLevelScore e)⟩ := rfl
  have hfin : (scoreEtf e).final_score = pyRound1 (rawFinalScore e) := rfl
  obtain ⟨hf, hf'⟩ := fundamentalScore_bounds h1 h2 h3
  obtain ⟨ht, ht'⟩ := technicalScore_bounds e
  obtain ⟨hl, hl'⟩ := liquidityScore_bounds h4 h5 h6
  obtain ⟨hp, hp'⟩ := priceLevelScore_bounds e
  obtain ⟨hr, hr'⟩ := rawFinalScore_bounds ⟨h1, h2, h3, h4, h5, h6⟩
  rw [hsc, hfin]
  refine ⟨⟨pyRound1_nonneg hf, pyRound1_le_100 hf'⟩,
    ⟨pyRound1_nonneg ht, pyRound1_le_100 ht'⟩,
    ⟨pyRound1_nonneg hl, pyRound1_le_100 hl'⟩,
    ⟨pyRound1_nonneg hp, pyRound1_le_100 hp'⟩,
    ⟨pyRound1_nonneg hr, pyRound1_le_100 hr'⟩,
    e, he, rfl, rfl, rfl⟩

/-- Witness for claim C2 at a concrete input. -/
theorem scores_bounded_and_combined_witness :
    (∀ e ∈ [eNeutral], SaneFacts e) ∧ (scoreEtf eNeutral) ∈ screenAndScore [eNeutral] ∧
    ((0 ≤ ((scoreEtf eNeutral).scores).fundamental ∧ ((scoreEtf eNeutral).scores).fundamental ≤ 100) ∧
    (0 ≤ ((scoreEtf eNeutral).scores).technical ∧ ((scoreEtf eNeutral).scores).technical ≤ 100) ∧
    (0 ≤ ((scoreEtf eNeutral).scores).liquidity ∧ ((scoreEtf eNeutral).scores).liquidity ≤ 100) ∧
    (0 ≤ ((scoreEtf eNeutral).scores).price_level ∧ ((scoreEtf eNeutral).scores).price_level ≤ 100) ∧
    (0 ≤ (scoreEtf eNeutral).final_score ∧ (scoreEtf eNeutral).final_score ≤ 100) ∧
    ∃ e ∈ [eNeutral], scoreEtf eNeutral = scoreEtf e ∧
      (scoreEtf eNeutral).final_score = pyRound1 (fundamentalScore e * 0.3 + technicalScore e * 0.4 +
        liquidityScore e * 0.15 + priceLevelScore e * 0.15) ∧
      (scoreEtf eNeutral).scores = ⟨pyRound1 (fundamentalScore e), pyRound1 (technicalScore e),
        pyRound1 (liquidityScore e), pyRound1 (priceLevelScore e)⟩) := by
  have hsane : ∀ e ∈ [eNeutral], SaneFacts e := by
    intro e he
    rw [List.mem_singleton] at he
    subst he
    refine ⟨?_, ?_, ?_, ?_, ?_, ?_⟩ <;>
      norm_num [expenseRateOf, aumOf, dividendYieldOf, avgVolumeOf, volumeVolatilityOf,
        bidAskSpreadOf, Etf.fund, Etf.liq, eNeutral]
  have hmem : (scoreEtf eNeutral) ∈ screenAndScore [eNeutral] := by
    simp [screenAndScore, List.insertionSort]
  exact ⟨hsane, hmem, scores_bounded_and_combined [eNeutral] hsane (scoreEtf eNeutral) hmem⟩

/-- An instrument with a fractional liquidity sub-score. -/
def eLiquid : Etf := ⟨"X", "流動", some 50, none, none, some ⟨some 1100000, none, none⟩, none⟩

/-- An instrument whose recorded assets-under-management figure is
negative. -/
def eBigDebt : Etf :=
  ⟨"Y", "負資產", some 50, some ⟨none, some (-101000000000), none, none⟩, none, none, none⟩

/-- Claim C2, counterexample: (1) the stored final score (combination of
the unrounded sub-scores, then rounded) differs from the convex
combination of the four stored (rounded) sub-scores; (2) a negative AUM
input drives the stored fundamental sub-score below 0, so the [0,100]
bound does not hold for arbitrary batches. -/
theorem scores_combination_counterexample :
    (scoreEtf eLiquid).final_score ≠
      ((scoreEtf eLiquid).scores).fundamental * 0.3 + ((scoreEtf eLiquid).scores).technical * 0.4 +
      ((scoreEtf eLiquid).scores).liquidity * 0.15 + ((scoreEtf eLiquid).scores).price_level * 0.15 ∧
    ((scoreEtf eBigDebt).scores).fundamental < 0 := by
  constructor <;>
    norm_num [scoreEtf, rawFinalScore, fundamentalScore, technicalScore, liquidityScore,
      priceLevelScore, pricePercentileOf, expenseRateOf, aumOf, dividendYieldOf, sharpeOf,
      avgVolumeOf, volumeVolatilityOf, bidAskSpreadOf, Etf.fund, Etf.tech, Etf.liq,
      eLiquid, eBigDebt, pyRound1, round_eq]

/- ---------------------------------------------------------------------
Claim C9.
--------------------------------------------------------------------- -/

/-- The fraction of green-rated instruments used by the breadth check. -/
def greenFracOf (etfScores : List ScoredEtf) : ℚ :=
  ((etfScores.filter (fun e => decide (e.rating = "綠燈"))).length : ℚ) /
    (etfScores.length : ℚ)

/-- Claim C9, amended: alerts are emitted in the fixed source order
(breadth, valuation, macro-technical, volatility), not grouped by
severity.  The high-severity alerts present are exactly the breadth alert
(nonempty universe with green fraction below 0.1) followed by the
volatility alert (vix above 35) — and the volatility alert sits at the end
of the list, after any medium alerts.  Every alert is high or medium. -/
theorem risk_alert_structure (etfScores : List ScoredEtf) (md : MarketData) :
    (checkRisks etfScores md).filter (fun a => decide (a.level = "high")) =
      (if 0 < etfScores.length ∧ greenFracOf etfScores < 0.1
        then [⟨"market_risk", "high", "市場風險警示"⟩] else []) ++
      (if 35 < (md.vix).getD 20 then [⟨"volatility_risk", "high", "波動率風險"⟩] else []) ∧
    (checkRisks etfScores md).all (fun a => a.level == "high" || a.level == "medium") = true := by
  constructor
  · unfold checkRisks marketRiskAlerts valuationRiskAlerts technicalRiskAlerts
      volatilityRiskAlerts greenFracOf
    by_cases h0 : 0 < etfScores.length
    · simp only [h0, true_and, if_true]
      split_ifs <;> simp_all
    · simp only [h0, false_and, if_false]
      split_ifs <;> simp_all
  · unfold checkRisks marketRiskAlerts valuationRiskAlerts technicalRiskAlerts
      volatilityRiskAlerts
    simp only [List.all_append, Bool.and_eq_true]
    refine ⟨⟨⟨?_, ?_⟩, ?_⟩, ?_⟩ <;> split_ifs <;> simp

/-- A scored instrument rated green but sitting at the extreme price
level (signal 紅燈). -/
def sGreenHighPrice : ScoredEtf :=
  ⟨"0056", "高價綠燈", 100, 75, "綠燈", "強烈建議", ⟨75, 75, 75, 75⟩,
    ⟨90, "極高水位", "紅燈", "價格處於歷史高位，建議等待回調", 0.6, 120, 80, 100⟩, true⟩

/-- A market snapshot in panic volatility. -/
def mdPanic : MarketData := ⟨some 40, none, none, none⟩

/-- Claim C9, counterexample: with one green instrument at the top price
bucket and vix 40, the monitor emits the medium valuation alert first and
the high volatility alert last, so high-severity alerts do not all precede
lower-severity ones. -/
theorem risk_alert_order_counterexample :
    (checkRisks [sGreenHighPrice] mdPanic).map RiskAlert.level = ["medium", "high"] ∧
    ¬ HighSeverityFirst (checkRisks [sGreenHighPrice] mdPanic) := by
  have hlist : checkRisks [sGreenHighPrice] mdPanic =
      [⟨"valuation_risk", "medium", "估值風險"⟩, ⟨"volatility_risk", "high", "波動率風險"⟩] := by
    unfold checkRisks marketRiskAlerts valuationRiskAlerts technicalRiskAlerts
      volatilityRiskAlerts
    norm_num [sGreenHighPrice, mdPanic]
  rw [hlist]
  constructor
  · rfl
  · unfold HighSeverityFirst
    rw [List.pairwise_cons]
    intro ⟨h1, _⟩
    have := h1 ⟨"volatility_risk", "high", "波動率風險"⟩ (List.mem_singleton.mpr rfl) rfl
    simp at this

/- ---------------------------------------------------------------------
Claim C5.
--------------------------------------------------------------------- -/

lemma originalTechnicalScore_up : originalTechnicalScore ⟨50, "上升", 1⟩ = 76 := by
  norm_num [originalTechnicalScore]

lemma originalTechnicalScore_down : originalTechnicalScore ⟨50, "下降", 1⟩ = 52 := by
  simp only [originalTechnicalScore]
  rw [if_neg (show ¬("下降" : String) = "上升" by decide),
    if_neg (show ¬("下降" : String) = "橫盤" by decide)]
  norm_num

/-- Claim C5, amended: the optimized scorer is deterministic — its output
does not depend on the runtime random source — while the non-optimized
engine's `ETFScreener._calculate_technical_score` does read the random
source, so two admissible draws can produce different scores for the same
input. -/
theorem scoring_determinism :
    (∀ (etfs : List Etf) (d1 d2 : ℕ → RandDraw),
      screenAndScoreWithDraws etfs d1 = screenAndScoreWithDraws etfs d2) ∧
    (∃ d1 d2 : RandDraw, d1.Admissible ∧ d2.Admissible ∧
      originalTechnicalScore d1 ≠ originalTechnicalScore d2) := by
  refine ⟨fun _ _ _ => rfl, ⟨50, "上升", 1⟩, ⟨50, "下降", 1⟩, ?_, ?_, ?_⟩
  · norm_num [RandDraw.Admissible]
  · norm_num [RandDraw.Admissible]
  · rw [originalTechnicalScore_up, originalTechnicalScore_down]
    norm_num

/-- Claim C5, counterexample: two runs of the non-optimized screener's
technical score on the same instrument, with different admissible draws
from `np.random`, give 76 and 52. -/
theorem scoring_randomness_counterexample :
    RandDraw.Admissible ⟨50, "上升", 1⟩ ∧ RandDraw.Admissible ⟨50, "下降", 1⟩ ∧
    originalTechnicalScore ⟨50, "上升", 1⟩ = 76 ∧
    originalTechnicalScore ⟨50, "下降", 1⟩ = 52 :=
  ⟨by norm_num [RandDraw.Admissible], by norm_num [RandDraw.Admissible],
    originalTechnicalScore_up, originalTechnicalScore_down⟩

/- ---------------------------------------------------------------------
Allocator lemmas for claims C1, C7, C8.
--------------------------------------------------------------------- -/

/-- A kept position buys at least one whole share at a positive price and
records exactly `shares * price`. -/
lemma mkPosition_some {T w : ℚ} {e : ScoredEtf} {p : Position}
    (hp : mkPosition T w e = some p) :
    1 ≤ p.shares ∧ p.amount = (p.shares : ℚ) * p.price ∧ 0 < p.price := by
  unfold mkPosition at hp
  by_cases hpr : 0 < e.current_price
  · simp only [hpr, if_true] at hp
    by_cases hsh : 0 < pyTrunc (T * w / e.current_price)
    · rw [if_pos hsh] at hp
      obtain rfl := Option.some_injective _ hp.symm
      exact ⟨hsh, rfl, hpr⟩
    · rw [if_neg hsh] at hp
      exact absurd hp (by simp)
  · simp [hpr] at hp

/-- The amount of a kept position never exceeds the planned amount. -/
lemma mkPosition_amount_le {T w : ℚ} {e : ScoredEtf} {p : Position}
    (hp : mkPosition T w e = some p) : p.amount ≤ T * w := by
  unfold mkPosition at hp
  by_cases hpr : 0 < e.current_price
  · simp only [hpr, if_true] at hp
    by_cases hsh : 0 < pyTrunc (T * w / e.current_price)
    · rw [if_pos hsh] at hp
      obtain rfl := Option.some_injective _ hp.symm
      have hq : 0 ≤ T * w / e.current_price := by
        by_contra hneg
        push_neg at hneg
        have : pyTrunc (T * w / e.current_price) ≤ 0 := by
          unfold pyTrunc
          rw [if_neg (not_le.mpr hneg)]
          exact Int.ceil_le.mpr (by exact_mod_cast hneg.le)
        omega
      have hfl : pyTrunc (T * w / e.current_price) = ⌊T * w / e.current_price⌋ := by
        unfold pyTrunc
        rw [if_pos hq]
      show (pyTrunc (T * w / e.current_price) : ℚ) * e.current_price ≤ T * w
      rw [hfl]
      calc (⌊T * w / e.current_price⌋ : ℚ) * e.current_price
          ≤ T * w / e.current_price * e.current_price :=
            mul_le_mul_of_nonneg_right (Int.floor_le _) hpr.le
        _ = T * w := div_mul_cancel₀ _ (ne_of_gt hpr)
    · rw [if_neg hsh] at hp
      exact absurd hp (by simp)
  · simp [hpr] at hp

/-- A nonpositive planned amount never yields a position. -/
lemma mkPosition_none {T w : ℚ} (e : ScoredEtf) (h : T * w ≤ 0) :
    mkPosition T w e = none := by
  unfold mkPosition
  by_cases hpr : 0 < e.current_price
  · simp only [hpr, if_true]
    have hq : T * w / e.current_price ≤ 0 := div_nonpos_of_nonpos_of_nonneg h hpr.le
    have hsh : ¬ 0 < pyTrunc (T * w / e.current_price) := by
      unfold pyTrunc
      split_ifs with h0
      · have : T * w / e.current_price = 0 := le_antisymm hq h0
        simp [this]
      · simp only [not_lt]
        exact Int.ceil_le.mpr (by exact_mod_cast hq)
    rw [if_neg hsh]
  · simp [hpr]

/-- Sum bound for the sizing pass: kept amounts are bounded by the sum of
the planned amounts when every planned amount is nonnegative. -/
lemma sum_filterMap_mkPosition_le (T : ℚ) (wf : ScoredEtf → ℚ) :
    ∀ l : List ScoredEtf, (∀ e ∈ l, 0 ≤ T * wf e) →
    ((l.filterMap (fun e => mkPosition T (wf e) e)).map Position.amount).sum ≤
      (l.map (fun e => T * wf e)).sum := by
  intro l
  induction l with
  | nil => simp
  | cons e t ih =>
    intro h
    have he := h e (List.mem_cons_self e t)
    have ht : ∀ x ∈ t, 0 ≤ T * wf x := fun x hx => h x (List.mem_cons_of_mem e hx)
    rw [List.filterMap_cons, List.map_cons, List.sum_cons]
    cases hp : mkPosition T (wf e) e with
    | none => exact (ih ht).trans (by linarith)
    | some p =>
      rw [List.map_cons, List.sum_cons]
      have := mkPosition_amount_le hp
      have := ih ht
      linarith

/-- The selection stage only returns elements of its input. -/
lemma selectedOf_subset {etfScores : List ScoredEtf} {numEtfs : ℕ} :
    ∀ e ∈ selectedOf etfScores numEtfs, e ∈ etfScores := by
  intro e he
  simp only [selectedOf] at he
  split_ifs at he <;>
    first
    | exact List.take_subset _ _ (List.take_subset _ _ he)
    | exact List.mem_of_mem_filter (List.take_subset _ _ he)

lemma baseWeight_nonneg (e : ScoredEtf) : 0 ≤ baseWeight e :=
  le_trans (by norm_num) (le_max_left 0.1 (e.final_score / 100))

lemma adjWeight_nonneg {e : ScoredEtf} (h : 0 ≤ (e.price_level).safety_multiplier) :
    0 ≤ adjWeight e := mul_nonneg (baseWeight_nonneg e) h

lemma normWeight_nonneg {sel : List ScoredEtf} {e : ScoredEtf}
    (hadj : ∀ x ∈ sel, 0 ≤ adjWeight x) (he : e ∈ sel) : 0 ≤ normWeight sel e := by
  unfold normWeight
  split_ifs with hw
  · exact div_nonneg (hadj e he) hw.le
  · exact div_nonneg zero_le_one (Nat.cast_nonneg _)

/-- The normalized weights of a nonempty selection sum to exactly 1, in
both branches of the source (positive total weight, or the uniform
`1/len` fallback). -/
lemma sum_normWeight {sel : List ScoredEtf} (hne : sel ≠ []) :
    (sel.map (normWeight sel)).sum = 1 := by
  unfold normWeight
  by_cases hw : 0 < totalWeightOf sel
  · simp only [hw, if_true]
    have h1 : (sel.map fun e => adjWeight e / totalWeightOf sel).sum =
        (sel.map adjWeight).sum / totalWeightOf sel := by
      simp only [div_eq_mul_inv]
      exact List.sum_map_mul_right sel adjWeight (totalWeightOf sel)⁻¹
    rw [h1]
    exact div_self (ne_of_gt hw)
  · simp only [hw, if_false]
    have hl : sel.length ≠ 0 := fun h => hne (List.length_eq_zero.mp h)
    rw [List.map_const', List.sum_replicate, nsmul_eq_mul]
    rw [mul_one_div, div_self (by exact_mod_cast hl)]

/- ---------------------------------------------------------------------
Claim C1.
--------------------------------------------------------------------- -/

/-- Claim C1: with positive capital, a nonnegative deployment rate and
nonnegative safety multipliers (as every scorer output has, claim C10),
the allocator's positions sum to at most `capital * deployment rate`, and
every returned position holds at least one whole share with
`amount = shares * price`. -/
theorem allocator_invariant (availableCash : ℚ) (ms : MarketStrategy)
    (etfScores : List ScoredEtf) (numEtfs : ℕ)
    (hcash : 0 < availableCash) (hrate : 0 ≤ ms.investRate)
    (hmult : ∀ e ∈ etfScores, 0 ≤ (e.price_level).safety_multiplier) :
    ((OptimizedPositionCalculator.calculate availableCash ms etfScores numEtfs).map
      Position.amount).sum ≤ availableCash * ms.investRate ∧
    ∀ p ∈ OptimizedPositionCalculator.calculate availableCash ms etfScores numEtfs,
      1 ≤ p.shares ∧ p.amount = (p.shares : ℚ) * p.price := by
  have hT : 0 ≤ availableCash * ms.investRate := mul_nonneg hcash.le hrate
  unfold OptimizedPositionCalculator.calculate
  split_ifs with h0
  · simp [hT]
  · unfold allocateTo
    split_ifs with hsel
    · simp [hT]
    · set sel := selectedOf etfScores numEtfs with hseldef
      have hadj : ∀ x ∈ sel, 0 ≤ adjWeight x :=
        fun x hx => adjWeight_nonneg (hmult x (selectedOf_subset x hx))
      have hnw : ∀ e ∈ sel, 0 ≤ availableCash * ms.investRate * normWeight sel e :=
        fun e he => mul_nonneg hT (normWeight_nonneg hadj he)
      constructor
      · have hle := sum_filterMap_mkPosition_le (availableCash * ms.investRate)
          (normWeight sel) sel hnw
        have heq : (sel.map fun e => availableCash * ms.investRate * normWeight sel e).sum =
            availableCash * ms.investRate := by
          have : (sel.map fun e => availableCash * ms.investRate * normWeight sel e) =
              sel.map fun e => normWeight sel e * (availableCash * ms.investRate) := by
            simp [mul_comm]
          rw [this, List.sum_map_mul_right sel (normWeight sel) (availableCash * ms.investRate),
            sum_normWeight hsel, one_mul]
        exact hle.trans_eq heq
      · intro p hp
        obtain ⟨e, _, he⟩ := List.mem_filterMap.mp hp
        obtain ⟨h1, h2, _⟩ := mkPosition_some he
        exact ⟨h1, h2⟩

/-- A plain balanced strategy record used as concrete allocator input. -/
def msBal : MarketStrategy := ⟨"平衡策略", 0.6, "市場處於正常區間，建議平衡配置，分批進場", ⟨45, 50, 50, 48.5⟩⟩

/-- A neutral price-level info record (mid percentile, multiplier 1.0). -/
def plNeutral : PriceLevelInfo :=
  ⟨50, "中等水位", "黃燈", "價格處於合理區間，可正常配置", 1.0, 120, 80, 100⟩

/-- Three qualifying scored instruments with scores 90, 70, 50 and prices
100, 50, 25. -/
def sNinety : ScoredEtf :=
  ⟨"0050", "九十分", 100, 90, "綠燈", "強烈建議", ⟨90, 90, 90, 90⟩, plNeutral, true⟩

/-- Score-70 instrument at price 50. -/
def sSeventy : ScoredEtf :=
  ⟨"0051", "七十分", 50, 70, "綠燈", "強烈建議", ⟨70, 70, 70, 70⟩, plNeutral, true⟩

/-- Score-50 instrument at price 25. -/
def sFifty : ScoredEtf :=
  ⟨"0052", "五十分", 25, 50, "黃燈", "可考慮", ⟨50, 50, 50, 50⟩, plNeutral, true⟩

/-- Witness for claim C1 at a concrete input. -/
theorem allocator_invariant_witness :
    (0 : ℚ) < 100000 ∧ (0 : ℚ) ≤ msBal.investRate ∧
    (((OptimizedPositionCalculator.calculate 100000 msBal [sNinety, sSeventy, sFifty] 0).map
      Position.amount).sum ≤ 100000 * msBal.investRate ∧
    ∀ p ∈ OptimizedPositionCalculator.calculate 100000 msBal [sNinety, sSeventy, sFifty] 0,
      1 ≤ p.shares ∧ p.amount = (p.shares : ℚ) * p.price) :=
  ⟨by norm_num, by norm_num [msBal],
    allocator_invariant 100000 msBal [sNinety, sSeventy, sFifty] 0 (by norm_num)
      (by norm_num [msBal])
      (by
        intro e he
        simp only [List.mem_cons, List.mem_singleton, List.not_mem_nil, or_false] at he
        rcases he with rfl | rfl | rfl <;>
          norm_num [sNinety, sSeventy, sFifty, plNeutral])⟩

/- ---------------------------------------------------------------------
Claim C7.
--------------------------------------------------------------------- -/

/-- Claim C7, amended: the allocator returns the empty list, not an
exception, whenever available capital is ≤ 0 (given a nonnegative
deployment rate and nonnegative safety multipliers), and returns the
empty list on an empty scored list; but a nonempty scored list in which
no instrument qualifies does NOT give an empty result in general — the
source falls back to the top three (claim C8). -/
theorem allocator_empty_on_nonpositive_cash (availableCash : ℚ) (ms : MarketStrategy)
    (etfScores : List ScoredEtf) (numEtfs : ℕ)
    (hrate : 0 ≤ ms.investRate)
    (hmult : ∀ e ∈ etfScores, 0 ≤ (e.price_level).safety_multiplier) :
    (availableCash ≤ 0 →
      OptimizedPositionCalculator.calculate availableCash ms etfScores numEtfs = []) ∧
    OptimizedPositionCalculator.calculate availableCash ms ([] : List ScoredEtf) numEtfs = [] := by
  constructor
  · intro hcash
    unfold OptimizedPositionCalculator.calculate
    split_ifs with h0
    · rfl
    · unfold allocateTo
      split_ifs with hsel
      · rfl
      · apply List.filterMap_eq_nil_iff.mpr
        intro e he
        have hadj : ∀ x ∈ selectedOf etfScores numEtfs, 0 ≤ adjWeight x :=
          fun x hx => adjWeight_nonneg (hmult x (selectedOf_subset x hx))
        have hT : availableCash * ms.investRate ≤ 0 :=
          mul_nonpos_iff.mpr (Or.inr ⟨hcash, hrate⟩)
        have hnw : 0 ≤ normWeight (selectedOf etfScores numEtfs) e :=
          normWeight_nonneg hadj he
        exact mkPosition_none e (mul_nonpos_iff.mpr (Or.inr ⟨hT, hnw⟩))
  · rfl

/-- Witness for claim C7 at a concrete input. -/
theorem allocator_empty_on_nonpositive_cash_witness :
    (0 : ℚ) ≤ msBal.investRate ∧
    (((-5000 : ℚ) ≤ 0 →
      OptimizedPositionCalculator.calculate (-5000) msBal [sNinety] 0 = []) ∧
    OptimizedPositionCalculator.calculate (-5000) msBal ([] : List ScoredEtf) 0 = []) :=
  ⟨by norm_num [msBal],
    allocator_empty_on_nonpositive_cash (-5000) msBal [sNinety] 0 (by norm_num [msBal])
      (by
        intro e he
        rw [List.mem_singleton] at he
        subst he
        norm_num [sNinety, plNeutral])⟩

/-- A scored instrument far below the qualification floor. -/
def sLow : ScoredEtf :=
  ⟨"0099", "低分", 10, 10, "紅燈", "暫不建議", ⟨10, 10, 10, 10⟩, plNeutral, true⟩

/-- Claim C7, counterexample: with one instrument scoring 10 (< 40, so
nothing qualifies) and positive capital, the allocator does not return
the empty list — the top-three fallback buys 6000 shares. -/
theorem allocator_fallback_not_empty_counterexample :
    sLow.final_score < 40 ∧
    OptimizedPositionCalculator.calculate 100000 msBal [sLow] 0 ≠ [] := by
  constructor
  · norm_num [sLow]
  · have h : OptimizedPositionCalculator.calculate 100000 msBal [sLow] 0 =
        [⟨"0099", "低分", 6000, 10, 60000, 100, "紅燈", "暫不建議", plNeutral, ⟨10, 10, 10, 10⟩⟩] := by
      unfold OptimizedPositionCalculator.calculate allocateTo selectedOf normWeight
        totalWeightOf mkPosition adjWeight baseWeight pyTrunc
      norm_num [sLow, plNeutral, msBal, List.filter_cons, List.filter_nil, List.filterMap_cons,
        List.filterMap_nil, List.take, List.map_cons, List.map_nil, List.sum_cons, List.sum_nil]
    rw [h]
    simp

/- ---------------------------------------------------------------------
Claim C8.
--------------------------------------------------------------------- -/

/-- Claim C8: when the scored list is nonempty but no instrument reaches
the floor of 40, the allocator falls back to the first three instruments
(the top three of the sorted input), sizes those (after the requested
count is applied), and any returned position still buys at least one
whole share; the result is empty only when no selected instrument can
afford one share. -/
theorem allocator_fallback (availableCash : ℚ) (ms : MarketStrategy)
    (etfScores : List ScoredEtf) (numEtfs : ℕ)
    (hne : etfScores ≠ []) (hlow : ∀ e ∈ etfScores, e.final_score < 40) :
    OptimizedPositionCalculator.calculate availableCash ms etfScores numEtfs =
      allocateTo availableCash ms
        (if 0 < numEtfs then (etfScores.take 3).take numEtfs else (etfScores.take 3).take 5) ∧
    (∀ p ∈ OptimizedPositionCalculator.calculate availableCash ms etfScores numEtfs,
      1 ≤ p.shares) ∧
    (OptimizedPositionCalculator.calculate availableCash ms etfScores numEtfs = [] →
      ∀ e ∈ selectedOf etfScores numEtfs,
        mkPosition (availableCash * ms.investRate)
          (normWeight (selectedOf etfScores numEtfs) e) e = none) := by
  have hfilter : etfScores.filter (fun e => decide (40 ≤ e.final_score)) = [] :=
    List.filter_eq_nil_iff.mpr (fun e he => by simpa using not_le.mpr (hlow e he))
  have hsel : selectedOf etfScores numEtfs =
      (if 0 < numEtfs then (etfScores.take 3).take numEtfs else (etfScores.take 3).take 5) := by
    unfold selectedOf
    rw [hfilter]
    simp
  refine ⟨?_, ?_, ?_⟩
  · unfold OptimizedPositionCalculator.calculate
    rw [if_neg hne, hsel]
  · intro p hp
    unfold OptimizedPositionCalculator.calculate at hp
    rw [if_neg hne] at hp
    unfold allocateTo at hp
    split_ifs at hp with h
    · exact absurd hp (by simp)
    · obtain ⟨e, _, he⟩ := List.mem_filterMap.mp hp
      exact (mkPosition_some he).1
  · intro hempty e he
    unfold OptimizedPositionCalculator.calculate at hempty
    rw [if_neg hne] at hempty
    unfold allocateTo at hempty
    split_ifs at hempty with h
    · exact absurd he (h ▸ List.not_mem_nil e)
    · exact List.filterMap_eq_nil_iff.mp hempty e he

/-- Witness for claim C8 at a concrete input. -/
theorem allocator_fallback_witness :
    ([sLow] ≠ ([] : List ScoredEtf)) ∧ (∀ e ∈ [sLow], e.final_score < 40) ∧
    (OptimizedPositionCalculator.calculate 100000 msBal [sLow] 0 =
      allocateTo 100000 msBal
        (if 0 < (0:ℕ) then ([sLow].take 3).take 0 else ([sLow].take 3).take 5) ∧
    (∀ p ∈ OptimizedPositionCalculator.calculate 100000 msBal [sLow] 0, 1 ≤ p.shares) ∧
    (OptimizedPositionCalculator.calculate 100000 msBal [sLow] 0 = [] →
      ∀ e ∈ selectedOf [sLow] 0,
        mkPosition (100000 * msBal.investRate) (normWeight (selectedOf [sLow] 0) e) e = none)) := by
  have hlow : ∀ e ∈ [sLow], e.final_score < 40 := by
    intro e he
    rw [List.mem_singleton] at he
    subst he
    norm_num [sLow]
  exact ⟨by simp, hlow, allocator_fallback 100000 msBal [sLow] 0 (by simp) hlow⟩
